import Mathlib

/-!
A Lean model of `pointer-set` (block-structured pointer arena).

This file is a shallow embedding of the TypeScript sources of the
`pointer-set` package (`src/index.ts`): a manually managed arena that hands
out 32-bit integer "pointers" into pre-allocated uint32 slabs.

Modelling conventions:

* JavaScript numbers that flow through the bitwise operators are modelled as
  `Int`, with the ECMAScript `ToInt32`/`ToUint32` conversions made explicit
  (`toInt32` / `toUint32`).  `<<`, `>>`, `&` and `|` are modelled by
  `jsShl`, `jsShr`, `jsAnd`, `jsOr`: each converts its operands to 32-bit
  space and returns the *signed* 32-bit representative, exactly as the JS
  operators do.
* `Uint32Array` slabs are lists of `Nat` (each entry `< 2^32`); a store
  `slab[i] = v` applies `ToUint32` to `v`.  `unsafeUint32Array` is modelled
  as its zero-initialising branch (the `typeof Buffer === 'undefined'`
  path of the source); no claim below depends on the contents of
  never-written slab entries.
* The `values` array is a JS array with holes: reads out of bounds and
  holes both give `undefined` (`none`); writes extend the array with holes.
* The free-list `Stack` is a list used LIFO from its tail, with the
  source's `Uint8Array`/`Uint16Array` truncation applied on push.
* The JS `Set` `blocksAvail` is an insertion-ordered duplicate-free list of
  block ids; `for (const b of set)` takes elements in insertion order.
* Methods of `PointerSetBase` dispatch on the decoded block id and delegate
  to `this.blocks[blockId]`; for every state built through the public API
  `blocks[i].blockId = i`, so the delegated call acts locally on that
  block.  The model performs that one delegation step directly.
* Thrown JS exceptions are modelled by `Except Err`.  Where the source can
  throw *after* mutating (`alloc`, the `refAll`/`rawAll` write loops), the
  operation returns the mutated state next to the error.
-/

namespace PtrSet

/-! ## ECMAScript 32-bit integer primitives -/

/-- ECMAScript `ToUint32`: the unsigned 32-bit pattern of a number. -/
def toUint32 (n : Int) : Nat := (n % 4294967296).toNat

/-- ECMAScript `ToInt32`: the signed 32-bit representative of a number. -/
def toInt32 (n : Int) : Int :=
  let m := n % 4294967296
  if m < 2147483648 then m else m - 4294967296

/-- JS `a << s` (signed 32-bit shift left). -/
def jsShl (a : Int) (s : Nat) : Int := toInt32 (((toUint32 a) <<< s : Nat) : Int)

/-- JS `a >> s` (sign-propagating shift right: floor division of the
signed 32-bit value, which `Int` division by a positive power of two is). -/
def jsShr (a : Int) (s : Nat) : Int := toInt32 a / ((2 : Int) ^ s)

/-- JS `a & b` on 32 bits. -/
def jsAnd (a b : Int) : Int := toInt32 ((((toUint32 a) &&& (toUint32 b)) : Nat) : Int)

/-- JS `a | b` on 32 bits. -/
def jsOr (a b : Int) : Int := toInt32 ((((toUint32 a) ||| (toUint32 b)) : Nat) : Int)

/-! ## The pointer codec (`getWordSize`, `getBlockId`, `getIndex`, `getPointer`) -/

/-- `getWordSize` from the source: 1 byte of index for block sizes up to
256, 2 bytes up to 65536, else the invalid marker 4. -/
def getWordSize (max : Nat) : Nat :=
  if max ≤ 256 then 1 else if max ≤ 65536 then 2 else 4

/-- The codec configuration fields of `PointerSetBase`, as computed by the
`PointerSet` constructor from the block size. -/
structure Cfg where
  wordSize : Nat
  shift : Nat
  mask : Nat
  blockIdMask : Nat
  shiftDownFix : Nat
  blockSize : Nat
deriving Repr, DecidableEq

/-- `shiftUpFix = 2**32`, the correction applied when shifting up. -/
def shiftUpFix : Int := 4294967296

/-- The constructor's derivation of the codec fields from `blockSize`. -/
def mkCfg (blockSize : Nat) : Cfg :=
  let ws := getWordSize blockSize
  { wordSize := ws
    shift := if ws = 1 then 8 else 16
    mask := if ws = 1 then 255 else 65535
    blockIdMask := if ws = 1 then 16777215 else 65535
    shiftDownFix := if ws = 1 then 16777216 else 65536
    blockSize := blockSize }

/-- `PointerSetBase.getBlockId`: shift down, correcting a negative result
by `shiftDownFix`.  (The source binds the shifted value to a const `b`;
here it is inlined.) -/
def getBlockId (cfg : Cfg) (p : Int) : Int :=
  if 0 ≤ jsShr p cfg.shift then jsShr p cfg.shift
  else (cfg.shiftDownFix : Int) + jsShr p cfg.shift

/-- `PointerSetBase.getIndex`: mask off the low index bits. -/
def getIndex (cfg : Cfg) (p : Int) : Int := jsAnd p (cfg.mask : Int)

/-- `PointerSetBase.getPointer`: shift the block id up (correcting an
overflow into the sign bit by `shiftUpFix`) and or in the index.  (The
source binds the shifted value to a const `b`; here it is inlined.) -/
def getPointer (cfg : Cfg) (blockId index : Int) : Int :=
  jsOr (if 0 ≤ jsShl blockId cfg.shift then jsShl blockId cfg.shift
        else shiftUpFix + jsShl blockId cfg.shift) index

/-! ## Errors

One constructor per distinct `throw` site of the source.
`jsUndefinedAccess` stands for the JS `TypeError` raised by touching a
property of `undefined` (e.g. `this.blocks[blockId]` out of range). -/

inductive Err where
  | rawAsPointer (f : String)
  | pointerAsRaw (f : String)
  | unknownPointerField (f : String)
  | unknownRawField (f : String)
  | readNull
  | writeNull
  | freeNull
  | eraseNull
  | outOfMemory
  | onlyFinalBlockDrop
  | invalidRawField (f : String)
  | blockSizeTooBig
  | jsUndefinedAccess
deriving Repr, DecidableEq

/-- Stored payload values are opaque to the arena; modelled as `Nat`. -/
abbrev Val := Nat

/-! ## JS array and `Stack` primitives -/

/-- JS read `arr[i]` on the `values` array: holes and out-of-bounds reads
are both `undefined` (`none`). -/
def jsGetV (l : List (Option Val)) (i : Nat) : Option Val := l.getD i none

/-- JS write `arr[i] = v` on the `values` array: writing past the end
extends the array with holes. -/
def jsSetV (l : List (Option Val)) (i : Nat) (v : Option Val) : List (Option Val) :=
  if i < l.length then l.set i v
  else l ++ List.replicate (i - l.length) none ++ [v]

/-- A `Uint32Array` store `slab[i] = v`: the value passes through
`ToUint32`; an out-of-range index is discarded (as a typed-array store
is). -/
def slabSet (slab : List Nat) (i : Nat) (v : Int) : List Nat := slab.set i (toUint32 v)

/-- A `Uint32Array` read `slab[i]`.  Every read the source performs uses an
index below the slab length; the model defaults an out-of-range read to 0
(JS would give `undefined`). -/
def slabGet (slab : List Nat) (i : Nat) : Nat := slab.getD i 0

/-- `Stack.push`: the backing store is a `Uint8Array` for block sizes up to
256 and a `Uint16Array` otherwise, so a pushed index truncates to the word
size (never observable: pushed indexes are below the block size). -/
def stackPush (cfg : Cfg) (st : List Nat) (n : Nat) : List Nat :=
  st ++ [n % 2 ^ (8 * cfg.wordSize)]

/-- `Set.add` on the insertion-ordered set of available block ids. -/
def availAdd (l : List Nat) (i : Nat) : List Nat := if i ∈ l then l else l ++ [i]

/-- `Set.delete` on the set of available block ids. -/
def availDelete (l : List Nat) (i : Nat) : List Nat := l.erase i

/-- Lookup in the `names` registry.  A JS object keeps the last assignment
for a repeated key, hence the reversed search. -/
def nameLookup (names : List (String × Int)) (f : String) : Option Int :=
  (names.reverse.find? (fun kv => kv.1 = f)).map (fun kv => kv.2)

/-! ## Blocks and the arena state -/

/-- The per-block state of `PointerSetBase`: the payload array, one uint32
slab per pointer field and per raw field, the free-list stack, the
low-water mark `nextFree`, the block's id and its reserved first index
(1 for the root block, 0 otherwise). -/
structure Block where
  values : List (Option Val)
  fields : List (List Nat)
  rawFields : List (List Nat)
  freeList : List Nat
  nextFree : Nat
  blockId : Nat
  firstNextFree : Nat
deriving Repr, DecidableEq

/-- The whole-arena state: the shared codec configuration and name
registry, the block list, and the set of blocks with space available. -/
structure PS where
  cfg : Cfg
  names : List (String × Int)
  blocks : List Block
  blocksAvail : List Nat
deriving Repr, DecidableEq

/-- The `names` entries for the pointer fields (ids 0, 1, ...). -/
def buildFieldNames (fields : List String) (start : Nat) : List (String × Int) :=
  match fields with
  | [] => []
  | f :: rest => (f, (start : Int)) :: buildFieldNames rest (start + 1)

/-- The `names` entries for the raw fields (ids `~0 = -1`, `~1 = -2`, ...),
failing as the constructor does when a raw field repeats a pointer field. -/
def buildRawNames (fields : List String) (raws : List String) (start : Nat) :
    Except Err (List (String × Int)) :=
  match raws with
  | [] => .ok []
  | f :: rest =>
    if fields.contains f then .error (.invalidRawField f)
    else
      match buildRawNames fields rest (start + 1) with
      | .error e => .error e
      | .ok tl => .ok ((f, -((start : Int) + 1)) :: tl)

/-- The `PointerSet` constructor: derive the codec fields, reject word
size 4 (block size above 65536), build the registry, create the root block
whose index 0 is the reserved null entry, and mark the root available. -/
def mkPS (fields : List String) (blockSize : Nat) (rawFields : List String) :
    Except Err PS :=
  let cfg := mkCfg blockSize
  if cfg.wordSize ≠ 1 ∧ cfg.wordSize ≠ 2 then .error .blockSizeTooBig
  else
    match buildRawNames fields rawFields 0 with
    | .error e => .error e
    | .ok rawNames =>
      .ok { cfg := cfg
            names := buildFieldNames fields 0 ++ rawNames
            blocks := [{ values := [none]
                         fields := List.replicate fields.length
                           (List.replicate blockSize 0)
                         rawFields := List.replicate rawFields.length
                           (List.replicate blockSize 0)
                         freeList := []
                         nextFree := 1
                         blockId := 0
                         firstNextFree := 1 }]
            blocksAvail := [0] }

/-! ## `alloc` -/

/-- The `writes` array of `alloc`: starts zeroed, then each entry of
`refs` is validated and stored at its field id. -/
def buildWrites (names : List (String × Int)) (acc : List Int)
    (refs : List (String × Int)) : Except Err (List Int) :=
  match refs with
  | [] => .ok acc
  | (k, p) :: rest =>
    match nameLookup names k with
    | none => .error (.unknownPointerField k)
    | some fid =>
      if fid < 0 then .error (.rawAsPointer k)
      else buildWrites names (acc.set fid.toNat p) rest

/-- The `rawWrites` array of `alloc` (raw ids store at `~fieldId`). -/
def buildRawWrites (names : List (String × Int)) (acc : List Int)
    (raws : List (String × Int)) : Except Err (List Int) :=
  match raws with
  | [] => .ok acc
  | (k, v) :: rest =>
    match nameLookup names k with
    | none => .error (.unknownRawField k)
    | some fid =>
      if 0 ≤ fid then .error (.pointerAsRaw k)
      else buildRawWrites names (acc.set (-fid - 1).toNat v) rest

/-- `for (let i = 0; i < writes.length; i++) slabs[i][index] = writes[i]`. -/
def writeSlabs (slabs : List (List Nat)) (index : Nat) (ws : List Int) :
    List (List Nat) :=
  List.zipWith (fun slab w => slabSet slab index w) slabs ws

/-- The in-block branch of `alloc` (taken when the invoked block has a
free-list entry or an unwritten slot): consume an index, store the value,
drop the block from `blocksAvail` when it fills up, and only then build
and apply the `refs`/`raws` writes — so a key-validation error leaves the
slot consumed. -/
def allocLocal (ps : PS) (selfId : Nat) (blk : Block) (value : Val)
    (refs raws : List (String × Int)) : Except Err Int × PS :=
  -- most recently freed index first, else the next unwritten one
  let index := blk.freeList.getLast?.getD blk.nextFree
  let freeList1 := if blk.freeList = [] then blk.freeList else blk.freeList.dropLast
  let nextFree1 := if blk.freeList = [] then blk.nextFree + 1 else blk.nextFree
  let avail1 :=
    if freeList1 = [] ∧ ps.cfg.blockSize ≤ nextFree1
    then availDelete ps.blocksAvail selfId else ps.blocksAvail
  let blk1 := { blk with freeList := freeList1, nextFree := nextFree1,
                         values := jsSetV blk.values index (some value) }
  let ps1 := { ps with blocks := ps.blocks.set selfId blk1, blocksAvail := avail1 }
  match buildWrites ps.names (List.replicate blk.fields.length 0) refs with
  | .error e => (.error e, ps1)
  | .ok writes =>
    let blk2 := { blk1 with fields := writeSlabs blk1.fields index writes }
    let ps2 := { ps1 with blocks := ps1.blocks.set selfId blk2 }
    match buildRawWrites ps.names (List.replicate blk.rawFields.length 0) raws with
    | .error e => (.error e, ps2)
    | .ok rawWrites =>
      (.ok (getPointer ps.cfg (blk.blockId : Int) (index : Int)),
       { ps2 with blocks := (ps2.blocks.set selfId
           { blk2 with rawFields := writeSlabs blk2.rawFields index rawWrites }) })

/-- `PointerSetBase.alloc`, invoked on the block `selfId` (the public API
invokes it on the root block, id 0), with explicit recursion fuel for the
delegation through `blocksAvail` and new-block construction; `none` means
the recursion did not finish within the fuel.  The state is returned next
to the result because the slot is consumed (and `blocksAvail` trimmed)
*before* the `refs`/`raws` keys are validated. -/
def allocFuel : Nat → PS → Nat → Val → List (String × Int) → List (String × Int) →
    Option (Except Err Int × PS)
  | 0, _, _, _, _, _ => none
  | fuel + 1, ps, selfId, value, refs, raws =>
    match ps.blocks.get? selfId with
    | none => some (.error .jsUndefinedAccess, ps)
    | some blk =>
      if blk.nextFree < ps.cfg.blockSize ∨ blk.freeList ≠ [] then
        some (allocLocal ps selfId blk value refs raws)
      else
        match ps.blocksAvail.head? with
        | some bId => allocFuel fuel ps bId value refs raws
        | none =>
          -- `new PointerSetBlock(...)`: id = blocks.length, checked against
          -- the block-id mask, pushed, marked available, then allocated from
          let newId := ps.blocks.length
          if (newId : Int) ≠ jsAnd (newId : Int) (ps.cfg.blockIdMask : Int) then
            some (.error .outOfMemory, ps)
          else
            allocFuel fuel
              { ps with
                blocks := ps.blocks ++
                  [{ values := []
                     fields := List.replicate
                       (((ps.blocks.get? 0).map (fun b => b.fields.length)).getD 0)
                       (List.replicate ps.cfg.blockSize 0)
                     rawFields := List.replicate
                       (((ps.blocks.get? 0).map (fun b => b.rawFields.length)).getD 0)
                       (List.replicate ps.cfg.blockSize 0)
                     freeList := []
                     nextFree := 0
                     blockId := newId
                     firstNextFree := 0 }]
                blocksAvail := availAdd ps.blocksAvail newId }
              newId value refs raws

/-! ## `free`, `erase`, `wipeBlock`, `drop`, `dropEmpty` -/

/-- `PointerSetBase.free`.  Decodes the pointer and acts on the owning
block (`this.blocks[blockId].free(pointer)`; for API-built states that
block's `blockId` field equals its position, so the delegated call is
local). -/
def free (ps : PS) (p : Int) : Except Err PS :=
  if p = 0 then .error .freeNull
  else
    let bId := (getBlockId ps.cfg p).toNat
    let index := (getIndex ps.cfg p).toNat
    match ps.blocks.get? bId with
    | none => .error .jsUndefinedAccess
    | some blk =>
      if jsGetV blk.values index = none then .ok ps
      else
        let blk1 :=
          if (blk.freeList.length : Int) + blk.firstNextFree = (blk.nextFree : Int) - 1 then
            -- freeing would meet `nextFree`: reset the whole block in O(1)
            { blk with freeList := [], nextFree := blk.firstNextFree,
                       values := if blk.blockId = 0 then [none] else [] }
          else if (index : Int) = (blk.nextFree : Int) - 1 then
            -- freeing the most recent slot: stack pop
            { blk with nextFree := blk.nextFree - 1, values := blk.values.dropLast }
          else
            { blk with freeList := stackPush ps.cfg blk.freeList index,
                       values := jsSetV blk.values index none }
        .ok { ps with blocks := ps.blocks.set bId blk1,
                      blocksAvail := availAdd ps.blocksAvail blk.blockId }

/-- `PointerSetBase.erase`: `free`, then zero the field and raw-field slab
entries at the index. -/
def erase (ps : PS) (p : Int) : Except Err PS :=
  if p = 0 then .error .eraseNull
  else
    let bId := (getBlockId ps.cfg p).toNat
    let index := (getIndex ps.cfg p).toNat
    match ps.blocks.get? bId with
    | none => .error .jsUndefinedAccess
    | some blk =>
      if jsGetV blk.values index = none then .ok ps
      else
        match free ps p with
        | .error e => .error e
        | .ok ps1 =>
          match ps1.blocks.get? bId with
          | none => .error .jsUndefinedAccess
          | some blk1 =>
            .ok { ps1 with blocks := (ps1.blocks.set bId
                  { blk1 with
                    fields := blk1.fields.map (fun s => s.set index 0),
                    rawFields := blk1.rawFields.map (fun s => s.set index 0) }) }

/-- `PointerSetBase.wipeBlock`, invoked on the block stored at `bId`. -/
def wipeBlock (ps : PS) (bId : Nat) : Except Err PS :=
  match ps.blocks.get? bId with
  | none => .error .jsUndefinedAccess
  | some blk =>
    .ok { ps with
          blocks := ps.blocks.set bId
            { blk with
              fields := blk.fields.map (fun s => List.replicate s.length 0),
              rawFields := blk.rawFields.map (fun s => List.replicate s.length 0),
              values := if blk.blockId = 0 then [none] else [],
              freeList := [],
              nextFree := blk.firstNextFree },
          blocksAvail := availAdd ps.blocksAvail blk.blockId }

/-- `PointerSetBase.drop`, invoked on the block stored at `bId` (the
public `store.drop()` invokes it on the root block).  Checks only that the
invoked block is the final one; block 0 is wiped instead of removed. -/
def drop (ps : PS) (bId : Nat) : Except Err PS :=
  match ps.blocks.get? bId with
  | none => .error .jsUndefinedAccess
  | some blk =>
    if (blk.blockId : Int) ≠ (ps.blocks.length : Int) - 1 then .error .onlyFinalBlockDrop
    else if blk.blockId = 0 then wipeBlock ps bId
    else
      .ok { ps with blocks := ps.blocks.dropLast,
                    blocksAvail := availDelete ps.blocksAvail blk.blockId }

/-- `entryCount` of one block: `nextFree - freeList.length` (a JS number,
hence `Int`). -/
def blockEntryCount (b : Block) : Int := (b.nextFree : Int) - (b.freeList.length : Int)

/-- `PointerSetBase.entryCount(blockId)`: delegated to `blocks[blockId]`
and computed there.  (All source call sites query ids below
`blocks.length`.) -/
def entryCount (ps : PS) (blockId : Nat) : Int :=
  match ps.blocks.get? blockId with
  | none => 0
  | some b => blockEntryCount b

/-- `PointerSetBase.available(blockId)`. -/
def available (ps : PS) (blockId : Nat) : Int :=
  (ps.cfg.blockSize : Int) - entryCount ps blockId

/-- `PointerSetBase.size()`: the sum of all blocks' entry counts. -/
def size (ps : PS) : Int := (ps.blocks.map blockEntryCount).sum

/-- `PointerSetBase.blocksCount()`. -/
def blocksCount (ps : PS) : Nat := ps.blocks.length

/-- The loop of `dropEmpty`:
`for (let i = blocks.length - 1; i > 0; i--) if (blocks[i].entryCount(i) === 0) blocks[i].drop()` —
note there is no early exit at the first non-empty block. -/
def dropEmptyLoop (ps : PS) : Nat → Except Err PS
  | 0 => .ok ps
  | i + 1 =>
    match ps.blocks.get? (i + 1) with
    | none => .error .jsUndefinedAccess
    | some blk =>
      if blockEntryCount blk = 0 then
        match drop ps (i + 1) with
        | .error e => .error e
        | .ok ps1 => dropEmptyLoop ps1 i
      else dropEmptyLoop ps i

/-- `PointerSetBase.dropEmpty`. -/
def dropEmpty (ps : PS) : Except Err PS := dropEmptyLoop ps (ps.blocks.length - 1)

/-! ## Field accessors -/

/-- `PointerSetBase.ref`: read (`target = none`) or write a pointer field.
When the field name is unknown, `fieldId` is `undefined`: `fieldId < 0` is
false and `fields[fieldId]` is no element, so the `!slab` check throws the
unknown-field error. -/
def ref (ps : PS) (p : Int) (field : String) (target : Option Int) :
    Except Err Int × PS :=
  if p = 0 then (.error (if target = none then .readNull else .writeNull), ps)
  else
    let bId := (getBlockId ps.cfg p).toNat
    let index := (getIndex ps.cfg p).toNat
    match nameLookup ps.names field with
    | some fid =>
      if fid < 0 then (.error (.rawAsPointer field), ps)
      else
        match ps.blocks.get? bId with
        | none => (.error .jsUndefinedAccess, ps)
        | some blk =>
          match blk.fields.get? fid.toNat with
          | none => (.error (.unknownPointerField field), ps)
          | some slab =>
            match target with
            | none => (.ok ((slabGet slab index : Nat) : Int), ps)
            | some t =>
              (.ok t,
               { ps with blocks := (ps.blocks.set bId
                 { blk with fields := blk.fields.set fid.toNat (slabSet slab index t) }) })
    | none =>
      match ps.blocks.get? bId with
      | none => (.error .jsUndefinedAccess, ps)
      | some _ => (.error (.unknownPointerField field), ps)

/-- `PointerSetBase.raw`: read (`val = none`) or write a raw uint32 field.
An unknown name gives `~undefined = -1`, and `rawFields[-1]` is no
element, so the `!slab` check throws the unknown-raw-field error. -/
def raw (ps : PS) (p : Int) (field : String) (val : Option Int) :
    Except Err Int × PS :=
  if p = 0 then (.error (if val = none then .readNull else .writeNull), ps)
  else
    let bId := (getBlockId ps.cfg p).toNat
    let index := (getIndex ps.cfg p).toNat
    match nameLookup ps.names field with
    | some fid =>
      if 0 ≤ fid then (.error (.pointerAsRaw field), ps)
      else
        match ps.blocks.get? bId with
        | none => (.error .jsUndefinedAccess, ps)
        | some blk =>
          match blk.rawFields.get? (-fid - 1).toNat with
          | none => (.error (.unknownRawField field), ps)
          | some slab =>
            match val with
            | none => (.ok ((slabGet slab index : Nat) : Int), ps)
            | some v =>
              (.ok v,
               { ps with blocks := (ps.blocks.set bId
                 { blk with rawFields :=
                     blk.rawFields.set (-fid - 1).toNat (slabSet slab index v) }) })
    | none =>
      match ps.blocks.get? bId with
      | none => (.error .jsUndefinedAccess, ps)
      | some _ => (.error (.unknownRawField field), ps)

/-- `PointerSetBase.value`: read (`v = none`) or write the payload. -/
def value (ps : PS) (p : Int) (v : Option Val) : Except Err (Option Val) × PS :=
  if p = 0 then (.error (if v = none then .readNull else .writeNull), ps)
  else
    let bId := (getBlockId ps.cfg p).toNat
    let index := (getIndex ps.cfg p).toNat
    match ps.blocks.get? bId with
    | none => (.error .jsUndefinedAccess, ps)
    | some blk =>
      match v with
      | some val =>
        (.ok (some val),
         { ps with blocks := (ps.blocks.set bId
           { blk with values := jsSetV blk.values index (some val) }) })
      | none => (.ok (jsGetV blk.values index), ps)

/-! ## Bulk accessors `refAll` / `rawAll` -/

/-- The snapshot `refAll` builds for an unoccupied slot: every pointer
field name mapped to the null pointer. -/
def zeroRefsSnapshot (names : List (String × Int)) : List (String × Int) :=
  (names.filter (fun kv => 0 ≤ kv.2)).map (fun kv => (kv.1, 0))

/-- The snapshot `rawAll` builds for an unoccupied slot. -/
def zeroRawsSnapshot (names : List (String × Int)) : List (String × Int) :=
  (names.filter (fun kv => kv.2 < 0)).map (fun kv => (kv.1, 0))

/-- The bulk read of `refAll`: each pointer field's slab entry. -/
def readRefs (names : List (String × Int)) (blk : Block) (index : Nat) :
    List (String × Int) :=
  (names.filter (fun kv => 0 ≤ kv.2)).map
    (fun kv => (kv.1, ((slabGet ((blk.fields.get? kv.2.toNat).getD []) index : Nat) : Int)))

/-- The bulk read of `rawAll`: each raw field's slab entry. -/
def readRaws (names : List (String × Int)) (blk : Block) (index : Nat) :
    List (String × Int) :=
  (names.filter (fun kv => kv.2 < 0)).map
    (fun kv =>
      (kv.1, ((slabGet ((blk.rawFields.get? (-kv.2 - 1).toNat).getD []) index : Nat) : Int)))

/-- The write loop of `refAll` over the supplied keys.  Each iteration
validates one key and writes the slab, so an error keeps the earlier
writes. -/
def refAllWrites (ps : PS) (bId index : Nat) (refs : List (String × Int)) :
    Except Err Unit × PS :=
  match refs with
  | [] => (.ok (), ps)
  | (k, ptr) :: rest =>
    match nameLookup ps.names k with
    | none => (.error (.unknownPointerField k), ps)
    | some fid =>
      if fid < 0 then (.error (.rawAsPointer k), ps)
      else
        match ps.blocks.get? bId with
        | none => (.error .jsUndefinedAccess, ps)
        | some blk =>
          match blk.fields.get? fid.toNat with
          | none => (.error .jsUndefinedAccess, ps)
          | some slab =>
            refAllWrites
              { ps with blocks := (ps.blocks.set bId
                  { blk with
                    fields := blk.fields.set fid.toNat (slabSet slab index ptr) }) }
              bId index rest

/-- The write loop of `rawAll`. -/
def rawAllWrites (ps : PS) (bId index : Nat) (raws : List (String × Int)) :
    Except Err Unit × PS :=
  match raws with
  | [] => (.ok (), ps)
  | (k, v) :: rest =>
    match nameLookup ps.names k with
    | none => (.error (.unknownRawField k), ps)
    | some fid =>
      if 0 ≤ fid then (.error (.pointerAsRaw k), ps)
      else
        match ps.blocks.get? bId with
        | none => (.error .jsUndefinedAccess, ps)
        | some blk =>
          match blk.rawFields.get? (-fid - 1).toNat with
          | none => (.error .jsUndefinedAccess, ps)
          | some slab =>
            rawAllWrites
              { ps with blocks := (ps.blocks.set bId
                  { blk with rawFields :=
                      blk.rawFields.set (-fid - 1).toNat (slabSet slab index v) }) }
              bId index rest

/-- `PointerSetBase.refAll`: bulk get (`refs = none`) or bulk set.  When
the slot is unoccupied (`values[index] === undefined`) a bulk set returns
the argument untouched, without writing or validating. -/
def refAll (ps : PS) (p : Int) (refs : Option (List (String × Int))) :
    Except Err (List (String × Int)) × PS :=
  if p = 0 then (.error (if refs = none then .readNull else .writeNull), ps)
  else
    let bId := (getBlockId ps.cfg p).toNat
    let index := (getIndex ps.cfg p).toNat
    match ps.blocks.get? bId with
    | none => (.error .jsUndefinedAccess, ps)
    | some blk =>
      if jsGetV blk.values index = none then
        match refs with
        | some r => (.ok r, ps)
        | none => (.ok (zeroRefsSnapshot ps.names), ps)
      else
        match refs with
        | some r =>
          match refAllWrites ps bId index r with
          | (.ok _, ps1) => (.ok r, ps1)
          | (.error e, ps1) => (.error e, ps1)
        | none => (.ok (readRefs ps.names blk index), ps)

/-- `PointerSetBase.rawAll`: bulk get (`raws = none`) or bulk set, with the
same unoccupied-slot early return as `refAll`. -/
def rawAll (ps : PS) (p : Int) (raws : Option (List (String × Int))) :
    Except Err (List (String × Int)) × PS :=
  if p = 0 then (.error (if raws = none then .readNull else .writeNull), ps)
  else
    let bId := (getBlockId ps.cfg p).toNat
    let index := (getIndex ps.cfg p).toNat
    match ps.blocks.get? bId with
    | none => (.error .jsUndefinedAccess, ps)
    | some blk =>
      if jsGetV blk.values index = none then
        match raws with
        | some r => (.ok r, ps)
        | none => (.ok (zeroRawsSnapshot ps.names), ps)
      else
        match raws with
        | some r =>
          match rawAllWrites ps bId index r with
          | (.ok _, ps1) => (.ok r, ps1)
          | (.error e, ps1) => (.error e, ps1)
        | none => (.ok (readRaws ps.names blk index), ps)

/-- Iterated single-field writes, `for k in refs: ref(p, k, refs[k])`,
stopping at the first error — the README's description of bulk set, used
to compare `refAll`'s write loop against `ref`. -/
def refWriteEach (ps : PS) (p : Int) (refs : List (String × Int)) :
    Except Err Unit × PS :=
  match refs with
  | [] => (.ok (), ps)
  | (k, t) :: rest =>
    match ref ps p k (some t) with
    | (.ok _, ps1) => refWriteEach ps1 p rest
    | (.error e, ps1) => (.error e, ps1)

/-- Iterated single-field raw writes, the `raw` counterpart of
`refWriteEach`. -/
def rawWriteEach (ps : PS) (p : Int) (raws : List (String × Int)) :
    Except Err Unit × PS :=
  match raws with
  | [] => (.ok (), ps)
  | (k, v) :: rest =>
    match raw ps p k (some v) with
    | (.ok _, ps1) => rawWriteEach ps1 p rest
    | (.error e, ps1) => (.error e, ps1)

/-! ## Byte-level raw-field views (`raw8` / `raw16` / `raw32`) -/

/-- The little-endian bytes of a uint32 word. -/
def bytesOfWord (w : Nat) : List Nat :=
  [w % 256, w / 256 % 256, w / 65536 % 256, w / 16777216 % 256]

/-- The little-endian 16-bit halves of a uint32 word. -/
def halvesOfWord (w : Nat) : List Nat := [w % 65536, w / 65536 % 65536]

/-- The uint32 word denoted by a 4-entry little-endian byte view. -/
def wordOfBytes (bs : List Nat) : Nat :=
  bs.getD 0 0 % 256 + bs.getD 1 0 % 256 * 256 +
    bs.getD 2 0 % 256 * 65536 + bs.getD 3 0 % 256 * 16777216

/-- The uint32 word denoted by a 2-entry little-endian half-word view. -/
def wordOfHalves (hs : List Nat) : Nat :=
  hs.getD 0 0 % 65536 + hs.getD 1 0 % 65536 * 65536

/-- Modelled from the spec: `raw8` is documented in the repository's README
and exercised by its tests, but its implementation is not among the
provided sources.  Per the spec it returns a live, mutably-aliased 4-byte
view over the same storage as the raw field's uint32 slot, little-endian
consistent with `raw()`.  In this functional model the view's observable
contents are the little-endian bytes of the current slot word (liveness is
by construction), and a write stores the recombined word through the
`raw()` access path. -/
def raw8 (ps : PS) (p : Int) (field : String) (val : Option (List Nat)) :
    Except Err (List Nat) × PS :=
  match val with
  | none =>
    match raw ps p field none with
    | (.ok w, ps1) => (.ok (bytesOfWord w.toNat), ps1)
    | (.error e, ps1) => (.error e, ps1)
  | some bs =>
    match raw ps p field (some ((wordOfBytes bs : Nat) : Int)) with
    | (.ok _, ps1) =>
      match raw ps1 p field none with
      | (.ok w, ps2) => (.ok (bytesOfWord w.toNat), ps2)
      | (.error e, ps2) => (.error e, ps2)
    | (.error e, ps1) => (.error e, ps1)

/-- Modelled from the spec: `raw16`, the 2-half-word sibling of `raw8`. -/
def raw16 (ps : PS) (p : Int) (field : String) (val : Option (List Nat)) :
    Except Err (List Nat) × PS :=
  match val with
  | none =>
    match raw ps p field none with
    | (.ok w, ps1) => (.ok (halvesOfWord w.toNat), ps1)
    | (.error e, ps1) => (.error e, ps1)
  | some hs =>
    match raw ps p field (some ((wordOfHalves hs : Nat) : Int)) with
    | (.ok _, ps1) =>
      match raw ps1 p field none with
      | (.ok w, ps2) => (.ok (halvesOfWord w.toNat), ps2)
      | (.error e, ps2) => (.error e, ps2)
    | (.error e, ps1) => (.error e, ps1)

/-- Modelled from the spec: `raw32`, the 1-word sibling of `raw8`. -/
def raw32 (ps : PS) (p : Int) (field : String) (val : Option (List Nat)) :
    Except Err (List Nat) × PS :=
  match val with
  | none =>
    match raw ps p field none with
    | (.ok w, ps1) => (.ok [w.toNat], ps1)
    | (.error e, ps1) => (.error e, ps1)
  | some ws =>
    match raw ps p field (some ((ws.getD 0 0 % 4294967296 : Nat) : Int)) with
    | (.ok _, ps1) =>
      match raw ps1 p field none with
      | (.ok w, ps2) => (.ok [w.toNat], ps2)
      | (.error e, ps2) => (.error e, ps2)
    | (.error e, ps1) => (.error e, ps1)

/-! ## Concrete scenario states used by the claims -/

deriving instance DecidableEq for Except

/-- Unwrap a constructor result (the scenarios below never hit the error
branch). -/
def psD (e : Except Err PS) : PS :=
  match e with
  | .ok s => s
  | .error _ => { cfg := mkCfg 256, names := [], blocks := [], blocksAvail := [] }

/-- Run a plain `alloc` (no refs/raws) with ample fuel; the scenarios
below never hit the fallback branches. -/
def allocD (ps : PS) (v : Val) : Int × PS :=
  match allocFuel 8 ps 0 v [] [] with
  | some (.ok p, ps1) => (p, ps1)
  | some (.error _, ps1) => (-1, ps1)
  | none => (-1, ps)

/-- Fresh arena with one pointer field and block size 5 (claims C2, C3). -/
def c2s0 : PS := psD (mkPS ["f"] 5 [])
def c2s1 : PS := (allocD c2s0 10).2
def c2s2 : PS := (allocD c2s1 11).2
def c2s3 : PS := (allocD c2s2 12).2
def c2s4 : PS := (allocD c2s3 13).2
def c2s5 : PS := (allocD c2s4 14).2
def c2s6 : PS := (allocD c2s5 15).2

/-- Fresh arena with no fields and block size 2 (claim C4): four
allocations fill the root block (1 usable slot), block 1 (2 slots) and
block 2 (first slot); freeing block 1's two entries empties it while
block 2 stays occupied. -/
def c4s0 : PS := psD (mkPS [] 2 [])
def c4s1 : PS := (allocD c4s0 20).2
def c4s2 : PS := (allocD c4s1 21).2
def c4s3 : PS := (allocD c4s2 22).2
def c4s4 : PS := (allocD c4s3 23).2
def c4s5 : PS := (free c4s4 256).toOption.getD c4s4
def c4s6 : PS := (free c4s5 257).toOption.getD c4s5

/-- Fresh arena with one pointer field `x` and block size 10 (claim C6):
allocate pointer 1, then free it, leaving its slot unoccupied. -/
def c6s0 : PS := psD (mkPS ["x"] 10 [])
def c6s1 : PS := (allocD c6s0 30).2
def c6s2 : PS := (free c6s1 1).toOption.getD c6s1

/-- Fields `next`/`prev`, block size 256 (claim C7): allocate A = 1 and
B = 2, link them, then free A. -/
def c7s0 : PS := psD (mkPS ["next", "prev"] 256 [])
def c7s1 : PS := (allocD c7s0 40).2
def c7s2 : PS := (allocD c7s1 41).2
def c7s3 : PS := (ref c7s2 1 "next" (some 2)).2
def c7s4 : PS := (ref c7s3 2 "prev" (some 1)).2
def c7s5 : PS := (free c7s4 1).toOption.getD c7s4

/-- The variant where A is torn down by `erase` instead of `free`: A's own
slab entries are zeroed (B's stale reference to A is not). -/
def c7s6 : PS := (erase c7s4 1).toOption.getD c7s4

/-- Fresh arena with block size 1 (claim C8): the root block is full from
birth (`nextFree = 1 = blockSize`) yet sits in `blocksAvail`. -/
def c8s0 : PS := psD (mkPS ["f"] 1 [])

/-- Raw field `x`, block size 10 (claim C9). -/
def c9s0 : PS := psD (mkPS [] 10 ["x"])
def c9s1 : PS := (allocD c9s0 50).2
def c9s2 : PS := (raw c9s1 1 "x" (some 16909060)).2

/-! ## Arithmetic facts about the primitives -/

theorem toUint32_toInt32 (z : Int) : toUint32 (toInt32 z) = toUint32 z := by
  simp only [toUint32, toInt32]
  split <;> omega

theorem toInt32_toInt32 (z : Int) : toInt32 (toInt32 z) = toInt32 z := by
  simp only [toInt32]
  split <;> split <;> omega

theorem toUint32_ofNat (n : Nat) (h : n < 4294967296) : toUint32 (n : Int) = n := by
  simp only [toUint32]; omega

theorem toInt32_ofNat (n : Nat) (h : n < 4294967296) :
    toInt32 (n : Int) = if n < 2147483648 then (n : Int) else (n : Int) - 4294967296 := by
  simp only [toInt32]
  split <;> split <;> omega

/-- Oring a value whose low `s` bits are clear with a value below `2^s`
is addition. -/
theorem lor_mul_pow_add (b i s : Nat) (hi : i < 2 ^ s) :
    (b * 2 ^ s) ||| i = b * 2 ^ s + i := by
  apply Nat.eq_of_testBit_eq
  intro j
  rw [Nat.testBit_lor]
  rw [show b * 2 ^ s + i = 2 ^ s * b + i from by ring]
  rw [Nat.testBit_mul_pow_two_add b hi j]
  rw [show b * 2 ^ s = 2 ^ s * b from by ring]
  rw [Nat.testBit_mul_pow_two]
  by_cases hj : j < s
  · simp [hj, Nat.not_le.mpr hj]
  · have hij : i.testBit j = false :=
      Nat.testBit_lt_two_pow
        (lt_of_lt_of_le hi (Nat.pow_le_pow_right (by norm_num) (Nat.not_lt.mp hj)))
    simp [hj, Nat.not_lt.mp hj, hij]

/-- The value the codec ors the index into: for an in-range block id the
sign-corrected shifted value is exactly `blockId * 2^shift`. -/
theorem getPointer_eq_toInt32 (cfg : Cfg) (b i : Nat)
    (hs : cfg.shift = 8 ∧ cfg.mask = 255 ∧ cfg.shiftDownFix = 16777216 ∧ b < 16777216 ∧ i < 256
        ∨ cfg.shift = 16 ∧ cfg.mask = 65535 ∧ cfg.shiftDownFix = 65536 ∧ b < 65536 ∧ i < 65536) :
    getPointer cfg (b : Int) (i : Int) = toInt32 ((b * 2 ^ cfg.shift + i : Nat) : Int) := by
  have hshl : jsShl (b : Int) cfg.shift = toInt32 ((b * 2 ^ cfg.shift : Nat) : Int) := by
    unfold jsShl
    rw [toUint32_ofNat b (by rcases hs with ⟨_, _, _, hb, _⟩ | ⟨_, _, _, hb, _⟩ <;> omega)]
    rw [Nat.shiftLeft_eq]
  have hb32 : b * 2 ^ cfg.shift < 4294967296 := by
    rcases hs with ⟨h1, _, _, hb, _⟩ | ⟨h1, _, _, hb, _⟩ <;> rw [h1] <;> omega
  have hi32 : i < 2 ^ cfg.shift := by
    rcases hs with ⟨h1, _, _, _, hi⟩ | ⟨h1, _, _, _, hi⟩ <;> rw [h1] <;> omega
  unfold getPointer
  rw [hshl, toInt32_ofNat _ hb32]
  have hcorr :
      (if 0 ≤ (if b * 2 ^ cfg.shift < 2147483648 then ((b * 2 ^ cfg.shift : Nat) : Int)
               else ((b * 2 ^ cfg.shift : Nat) : Int) - 4294967296)
       then (if b * 2 ^ cfg.shift < 2147483648 then ((b * 2 ^ cfg.shift : Nat) : Int)
             else ((b * 2 ^ cfg.shift : Nat) : Int) - 4294967296)
       else shiftUpFix + (if b * 2 ^ cfg.shift < 2147483648 then ((b * 2 ^ cfg.shift : Nat) : Int)
             else ((b * 2 ^ cfg.shift : Nat) : Int) - 4294967296))
      = ((b * 2 ^ cfg.shift : Nat) : Int) := by
    unfold shiftUpFix
    split <;> split at * <;> omega
  rw [hcorr]
  unfold jsOr
  rw [toUint32_ofNat _ hb32, toUint32_ofNat i (by omega)]
  rw [lor_mul_pow_add b i cfg.shift hi32]

/-- Round trip of the codec, stated for either bit split with the mask and
fixups as literals. -/
theorem roundtrip_core (cfg : Cfg) (b i : Nat)
    (hs : cfg.shift = 8 ∧ cfg.mask = 255 ∧ cfg.shiftDownFix = 16777216 ∧ b < 16777216 ∧ i < 256
        ∨ cfg.shift = 16 ∧ cfg.mask = 65535 ∧ cfg.shiftDownFix = 65536 ∧ b < 65536 ∧ i < 65536) :
    getBlockId cfg (getPointer cfg (b : Int) (i : Int)) = (b : Int) ∧
    getIndex cfg (getPointer cfg (b : Int) (i : Int)) = (i : Int) := by
  have hp := getPointer_eq_toInt32 cfg b i hs
  have hN32 : b * 2 ^ cfg.shift + i < 4294967296 := by
    rcases hs with ⟨h1, _, _, hb, hi⟩ | ⟨h1, _, _, hb, hi⟩ <;> rw [h1] <;> omega
  have hmaskpow : cfg.mask = 2 ^ cfg.shift - 1 := by
    rcases hs with ⟨h1, h2, _⟩ | ⟨h1, h2, _⟩ <;> rw [h1, h2] <;> norm_num
  have hfixpow : (cfg.shiftDownFix : Int) = 4294967296 / 2 ^ cfg.shift := by
    rcases hs with ⟨h1, _, h3, _⟩ | ⟨h1, _, h3, _⟩ <;> rw [h1, h3] <;> norm_num
  have hpowpos : (0 : Int) < 2 ^ cfg.shift := by positivity
  have hpowdvd : (2 : Int) ^ cfg.shift ∣ 4294967296 := by
    rcases hs with ⟨h1, _⟩ | ⟨h1, _⟩ <;> rw [h1] <;> norm_num
  have hipow : i < 2 ^ cfg.shift := by
    rcases hs with ⟨h1, _, _, _, hi⟩ | ⟨h1, _, _, _, hi⟩ <;> rw [h1] <;> omega
  set N : Nat := b * 2 ^ cfg.shift + i with hN
  have hcastN : ((N : Nat) : Int) = (b : Int) * 2 ^ cfg.shift + (i : Int) := by
    push_cast [hN]; ring
  constructor
  · unfold getBlockId jsShr
    rw [hp, toInt32_toInt32, toInt32_ofNat N hN32]
    by_cases hc : N < 2147483648
    · simp only [hc, if_true]
      have hq : ((N : Nat) : Int) / (2 : Int) ^ cfg.shift = (b : Int) := by
        rw [hcastN,
          show (b : Int) * 2 ^ cfg.shift + (i : Int)
              = (i : Int) + (b : Int) * 2 ^ cfg.shift from by ring,
          Int.add_mul_ediv_right _ _ (by positivity : (2 : Int) ^ cfg.shift ≠ 0),
          Int.ediv_eq_zero_of_lt (Int.natCast_nonneg i) (by exact_mod_cast hipow)]
        ring
      rw [hq]
      simp [Int.natCast_nonneg]
    · simp only [hc, if_false]
      have hq : (((N : Nat) : Int) - 4294967296) / (2 : Int) ^ cfg.shift
          = (b : Int) - 4294967296 / 2 ^ cfg.shift := by
        obtain ⟨c, hc4⟩ := hpowdvd
        rw [hcastN, hc4]
        rw [show (b : Int) * 2 ^ cfg.shift + (i : Int) - 2 ^ cfg.shift * c
              = (i : Int) + ((b : Int) - c) * 2 ^ cfg.shift from by ring]
        rw [Int.add_mul_ediv_right _ _ (by positivity : (2 : Int) ^ cfg.shift ≠ 0)]
        rw [Int.ediv_eq_zero_of_lt (Int.natCast_nonneg i) (by exact_mod_cast hipow)]
        rw [Int.mul_ediv_cancel_left _ (by positivity : (2 : Int) ^ cfg.shift ≠ 0)]
        ring
      rw [hq]
      have hblt : (b : Int) < 4294967296 / 2 ^ cfg.shift := by
        rcases hs with ⟨h1, _, _, hb, _⟩ | ⟨h1, _, _, hb, _⟩ <;> rw [h1] <;>
          norm_num <;> exact_mod_cast hb
      have hneg : ¬ (0 : Int) ≤ (b : Int) - 4294967296 / 2 ^ cfg.shift := by omega
      simp only [hneg, if_false]
      rw [hfixpow]
      ring
  · unfold getIndex jsAnd
    rw [hp, toUint32_toInt32, toUint32_ofNat N hN32]
    rw [toUint32_ofNat cfg.mask
      (by rcases hs with ⟨_, h2, _⟩ | ⟨_, h2, _⟩ <;> rw [h2] <;> norm_num)]
    rw [hmaskpow, Nat.and_pow_two_sub_one_eq_mod]
    have hmod : N % 2 ^ cfg.shift = i := by
      rw [hN, show b * 2 ^ cfg.shift + i = i + b * 2 ^ cfg.shift from by ring,
        Nat.add_mul_mod_self_right, Nat.mod_eq_of_lt hipow]
    rw [hmod, toInt32_ofNat i
      (by rcases hs with ⟨_, _, _, _, hi⟩ | ⟨_, _, _, _, hi⟩ <;> omega)]
    have : i < 2147483648 := by
      rcases hs with ⟨_, _, _, _, hi⟩ | ⟨_, _, _, _, hi⟩ <;> omega
    simp only [this, if_true]

/-! ## Helper lemmas about the array primitives -/

theorem jsGetV_jsSetV (l : List (Option Val)) (i : Nat) (v : Option Val) :
    jsGetV (jsSetV l i v) i = v := by
  unfold jsGetV jsSetV
  by_cases h : i < l.length
  · simp only [h, if_true]
    rw [List.getD_eq_get?, List.get?_set_eq]
    obtain ⟨a, hg⟩ : ∃ a, l.get? i = some a := by
      cases hg : l.get? i with
      | none => rw [List.get?_eq_none] at hg; omega
      | some a => exact ⟨a, rfl⟩
    rw [List.get?_eq_getElem?] at hg
    simp [hg]
  · simp only [h, if_false]
    rw [List.getD_eq_get?, List.append_assoc, List.get?_append_right (by omega)]
    rw [List.get?_append_right (by simp)]
    simp

theorem list_set_same {α : Type} (l : List α) (i : Nat) (x : α)
    (h : l.get? i = some x) : l.set i x = l := by
  induction l generalizing i with
  | nil => simp at h
  | cons a t ih =>
    cases i with
    | zero => simp_all [List.set]
    | succ j =>
      simp only [List.get?] at h
      simp [List.set, ih j h]

theorem sum_map_set (f : Block → Int) (l : List Block) (i : Nat) (a b : Block)
    (h : l.get? i = some b) :
    ((l.set i a).map f).sum = (l.map f).sum + f a - f b := by
  induction l generalizing i with
  | nil => simp at h
  | cons c t ih =>
    cases i with
    | zero =>
      simp only [List.get?] at h
      obtain rfl : c = b := by injection h
      simp [List.set]
      ring
    | succ j =>
      simp only [List.get?] at h
      simp only [List.set, List.map_cons, List.sum_cons, ih j h]
      ring

/-! ## The claims -/

/-- C1: for every valid (blockId, index) pair within the codec's range
(blockId < 2^24 and index < 256 when blockSize ≤ 256, blockId < 2^16 and
index < 65536 when 256 < blockSize ≤ 65536), decoding the encoded pointer
returns the original pair: `getBlockId (getPointer b i) = b` and
`getIndex (getPointer b i) = i`. -/
theorem C1_codec_roundtrip (bs b i : Nat) (hbs1 : 1 ≤ bs) (hbs2 : bs ≤ 65536)
    (hrange : (bs ≤ 256 ∧ b < 2 ^ 24 ∧ i < 2 ^ 8)
            ∨ (256 < bs ∧ b < 2 ^ 16 ∧ i < 2 ^ 16)) :
    getBlockId (mkCfg bs) (getPointer (mkCfg bs) (b : Int) (i : Int)) = (b : Int) ∧
    getIndex (mkCfg bs) (getPointer (mkCfg bs) (b : Int) (i : Int)) = (i : Int) := by
  apply roundtrip_core
  rcases hrange with ⟨hle, hb, hi⟩ | ⟨hgt, hb, hi⟩
  · left
    have hw : getWordSize bs = 1 := by simp [getWordSize, hle]
    refine ⟨?_, ?_, ?_, by omega, by omega⟩ <;> simp [mkCfg, hw]
  · right
    have hw : getWordSize bs = 2 := by
      simp [getWordSize, hbs2]
      omega
    refine ⟨?_, ?_, ?_, by omega, by omega⟩ <;> simp [mkCfg, hw]

/-- Witness for C1 at block size 300 (16-bit split), blockId 65535,
index 123 — the pair exercised by the repository's own test. -/
theorem C1_codec_roundtrip_witness :
    getBlockId (mkCfg 300) (getPointer (mkCfg 300) ((65535 : Nat) : Int) ((123 : Nat) : Int))
      = ((65535 : Nat) : Int) ∧
    getIndex (mkCfg 300) (getPointer (mkCfg 300) ((65535 : Nat) : Int) ((123 : Nat) : Int))
      = ((123 : Nat) : Int) :=
  C1_codec_roundtrip 300 65535 123 (by norm_num) (by norm_num)
    (Or.inr (by norm_num))

/-- C5 (code bug): `getPointer` is documented to produce an unsigned
value in [0, 2^32), and it does correct the shifted block id for sign —
but the final `| index` re-coerces the result to a signed 32-bit value, so
for blockId 2^23 (8-bit split) the returned pointer is -2147483648 rather
than 2^23 * 2^8 = 2147483648.  The bit pattern is still the documented
one (`toUint32` recovers it), which is why decoding still round-trips. -/
theorem C5_getPointer_sign_bug :
    getPointer (mkCfg 256) ((8388608 : Nat) : Int) 0 = -2147483648 ∧
    getPointer (mkCfg 256) ((8388608 : Nat) : Int) 0 < 0 ∧
    toUint32 (getPointer (mkCfg 256) ((8388608 : Nat) : Int) 0) = 8388608 * 256 ∧
    getBlockId (mkCfg 256) (getPointer (mkCfg 256) ((8388608 : Nat) : Int) 0)
      = ((8388608 : Nat) : Int) := by
  refine ⟨by decide, by decide, by decide, by decide⟩

/-- C2 (counterexample): the claim says the 6th `alloc` call creates
block 1; in fact the 5th call already does — after five allocations the
arena already has two blocks, and the 6th allocation adds none. -/
theorem C2_counterexample :
    blocksCount c2s4 = 1 ∧ blocksCount c2s5 = 2 ∧ blocksCount c2s6 = 2 := by
  decide

/-- C2 (amended): for a fresh arena with blockSize = 5 and one field,
after 5 `alloc` calls `available(0) = 0` and `blocksCount() = 2`: the root
block's index 0 is reserved for the null pointer, so the root holds the
reserved entry plus 4 allocations, and the **5th** allocation creates
block 1; the 6th allocation is serviced from block 1 and leaves
`blocksCount() = 2`. -/
theorem C2_capacity_accounting :
    available c2s4 0 = 0 ∧ blocksCount c2s4 = 1 ∧
    available c2s5 0 = 0 ∧ blocksCount c2s5 = 2 ∧ entryCount c2s5 1 = 1 ∧
    blocksCount c2s6 = 2 ∧ entryCount c2s6 1 = 2 := by
  decide

/-- C3 (code bug): `drop()` is documented ("Throws if the block has
entries") and claimed to fail on a non-empty block, but the source only
checks that the invoked block is the final one.  Dropping the final block
while it still holds an entry succeeds and discards the entry: in `c2s5`
block 1 holds one entry, yet `drop` on it returns successfully and leaves
a single block.  (Dropping a non-final block does fail, as in the second
conjunct.) -/
theorem C3_drop_occupied_succeeds :
    entryCount c2s5 1 = 1 ∧
    drop c2s5 0 = .error .onlyFinalBlockDrop ∧
    (drop c2s5 1).isOk = true ∧
    blocksCount ((drop c2s5 1).toOption.getD c2s5) = 1 := by
  decide

/-- C4 (code bug): `dropEmpty()` is claimed (and documented: "Pop any
empty blocks off the end of the stack") to remove exactly the trailing
empty blocks and complete without error, but its loop has no early exit:
in `c4s6` block 1 is empty while block 2 is non-empty, and the loop calls
`drop()` on block 1 — which is not the final block — so `dropEmpty`
throws `only the final block may be dropped`. -/
theorem C4_dropEmpty_throws :
    entryCount c4s6 1 = 0 ∧ entryCount c4s6 2 = 1 ∧ blocksCount c4s6 = 3 ∧
    dropEmpty c4s6 = .error .onlyFinalBlockDrop := by
  decide

set_option maxRecDepth 8000 in
/-- C7: `free(p)` never modifies the `fields` or `rawFields` slabs of any
block; in the scenario with fields `next`/`prev` and blockSize 256
(A = pointer 1, B = pointer 2, `ref(A,'next',B)`, `ref(B,'prev',A)`,
then `free(A)`), the stale reads `ref(B,'prev') = A` and
`ref(A,'next') = B` both survive the free, and only `erase(A)` clears A's
own entries. -/
theorem C7_free_preserves_slabs :
    (∀ ps p ps', free ps p = .ok ps' →
      ps'.blocks.map Block.fields = ps.blocks.map Block.fields ∧
      ps'.blocks.map Block.rawFields = ps.blocks.map Block.rawFields) ∧
    free c7s4 1 = .ok c7s5 ∧
    (ref c7s5 2 "prev" none).1 = .ok 1 ∧
    (ref c7s5 1 "next" none).1 = .ok 2 ∧
    (ref c7s6 1 "next" none).1 = .ok 0 ∧
    (ref c7s6 2 "prev" none).1 = .ok 1 := by
  refine ⟨?_, by decide, by decide, by decide, by decide, by decide⟩
  intro ps p ps' hok
  simp only [free] at hok
  by_cases hp : p = 0
  · simp [hp] at hok
  · simp only [hp, if_false] at hok
    cases hblk : ps.blocks.get? (getBlockId ps.cfg p).toNat with
    | none =>
      simp only [hblk] at hok
      exact absurd hok (by simp)
    | some blk =>
      simp only [hblk] at hok
      by_cases hocc : jsGetV blk.values (getIndex ps.cfg p).toNat = none
      · rw [if_pos hocc] at hok
        injection hok with h
        subst h
        exact ⟨rfl, rfl⟩
      · rw [if_neg hocc] at hok
        injection hok with h
        subst h
        constructor <;>
        · dsimp only
          split <;>
            [skip; split] <;>
            · rw [List.map_set]
              exact list_set_same _ _ _ (by rw [List.get?_map, hblk]; rfl)

/-- C8 (code bug): construction succeeds for blockSize = 1, but the fresh
root block is already full (`nextFree = 1 = blockSize`, `available(0) = 0`)
while still sitting in `blocksAvail`; the first `alloc` therefore
delegates to the first available block — the root itself — and recurses
forever (a stack overflow in JS).  Formally, no amount of fuel makes
`allocFuel` return. -/
theorem C8_blockSize_one_alloc_diverges :
    (mkPS ["f"] 1 []).isOk = true ∧
    available c8s0 0 = 0 ∧
    c8s0.blocksAvail = [0] ∧
    (∀ fuel v, allocFuel fuel c8s0 0 v [] [] = none) := by
  refine ⟨by decide, by decide, by decide, ?_⟩
  intro fuel v
  induction fuel with
  | zero => rfl
  | succ n ih =>
    exact (show allocFuel (n + 1) c8s0 0 v [] []
        = allocFuel n c8s0 0 v [] [] from rfl).trans ih

set_option maxRecDepth 8000 in
/-- Witness for C7: the frame property applied to the concrete scenario
step `free c7s4 1 = .ok c7s5`. -/
theorem C7_free_preserves_slabs_witness :
    c7s5.blocks.map Block.fields = c7s4.blocks.map Block.fields ∧
    c7s5.blocks.map Block.rawFields = c7s4.blocks.map Block.rawFields :=
  C7_free_preserves_slabs.1 c7s4 1 c7s5 (by decide)

set_option maxRecDepth 2000 in
/-- C10: `alloc` is not atomic on field-validation errors.  If the invoked
block has room and the `refs` (or `raws`) argument contains an invalid key,
`alloc` throws — yet the slot is already consumed: the value is stored at
the taken index, `nextFree` was advanced (or the free list popped), and
`size()` has grown by 1, even though no pointer reaches the caller. -/
theorem C10_alloc_mutates_before_validation
    (ps : PS) (selfId fuel : Nat) (v : Val) (refs raws : List (String × Int))
    (blk : Block) (e : Err)
    (hblk : ps.blocks.get? selfId = some blk)
    (hroom : blk.nextFree < ps.cfg.blockSize ∨ blk.freeList ≠ [])
    (hbad : buildWrites ps.names (List.replicate blk.fields.length 0) refs = .error e
          ∨ ((∃ ws, buildWrites ps.names (List.replicate blk.fields.length 0) refs = .ok ws)
             ∧ buildRawWrites ps.names (List.replicate blk.rawFields.length 0) raws
               = .error e)) :
    ∃ ps', allocFuel (fuel + 1) ps selfId v refs raws = some (.error e, ps') ∧
      size ps' = size ps + 1 ∧
      ∃ blk', ps'.blocks.get? selfId = some blk' ∧
        jsGetV blk'.values (blk.freeList.getLast?.getD blk.nextFree) = some v ∧
        (blk.freeList = [] → blk'.nextFree = blk.nextFree + 1 ∧ blk'.freeList = []) ∧
        (blk.freeList ≠ [] → blk'.nextFree = blk.nextFree ∧
           blk'.freeList = blk.freeList.dropLast) := by
  have hstep : allocFuel (fuel + 1) ps selfId v refs raws
      = some (allocLocal ps selfId blk v refs raws) := by
    simp only [allocFuel, hblk]
    rw [if_pos hroom]
  rcases hbad with herr | ⟨⟨ws, hws⟩, herr2⟩
  · refine ⟨_, by rw [hstep]; simp only [allocLocal, herr]; rfl, ?_,
      { blk with
        freeList := if blk.freeList = [] then blk.freeList else blk.freeList.dropLast,
        nextFree := if blk.freeList = [] then blk.nextFree + 1 else blk.nextFree,
        values := jsSetV blk.values (blk.freeList.getLast?.getD blk.nextFree) (some v) },
      ?_, ?_, ?_, ?_⟩
    · dsimp only [size]
      rw [sum_map_set blockEntryCount ps.blocks selfId _ blk hblk]
      have hbump : blockEntryCount
          { blk with
            freeList := if blk.freeList = [] then blk.freeList else blk.freeList.dropLast,
            nextFree := if blk.freeList = [] then blk.nextFree + 1 else blk.nextFree,
            values := jsSetV blk.values (blk.freeList.getLast?.getD blk.nextFree) (some v) }
          = blockEntryCount blk + 1 := by
        by_cases hfl : blk.freeList = []
        · simp only [blockEntryCount, hfl, if_true]
          push_cast
          ring
        · have hlen : 1 ≤ blk.freeList.length := List.length_pos.mpr hfl
          simp only [blockEntryCount, hfl, if_false, List.length_dropLast]
          omega
      rw [hbump]
      ring
    · dsimp only
      rw [List.get?_set_eq, hblk]
      rfl
    · exact jsGetV_jsSetV _ _ _
    · intro hfl
      simp [hfl]
    · intro hfl
      simp [hfl]
  · refine ⟨_, by rw [hstep]; simp only [allocLocal, hws, herr2]; rfl, ?_,
      { blk with
        freeList := if blk.freeList = [] then blk.freeList else blk.freeList.dropLast,
        nextFree := if blk.freeList = [] then blk.nextFree + 1 else blk.nextFree,
        values := jsSetV blk.values (blk.freeList.getLast?.getD blk.nextFree) (some v),
        fields := writeSlabs blk.fields (blk.freeList.getLast?.getD blk.nextFree) ws },
      ?_, ?_, ?_, ?_⟩
    · dsimp only [size]
      rw [List.set_set, sum_map_set blockEntryCount ps.blocks selfId _ blk hblk]
      have hbump : blockEntryCount
          { blk with
            freeList := if blk.freeList = [] then blk.freeList else blk.freeList.dropLast,
            nextFree := if blk.freeList = [] then blk.nextFree + 1 else blk.nextFree,
            values := jsSetV blk.values (blk.freeList.getLast?.getD blk.nextFree) (some v),
            fields := writeSlabs blk.fields (blk.freeList.getLast?.getD blk.nextFree) ws }
          = blockEntryCount blk + 1 := by
        by_cases hfl : blk.freeList = []
        · simp only [blockEntryCount, hfl, if_true]
          push_cast
          ring
        · have hlen : 1 ≤ blk.freeList.length := List.length_pos.mpr hfl
          simp only [blockEntryCount, hfl, if_false, List.length_dropLast]
          omega
      exact hbump ▸ by ring
    · dsimp only
      rw [List.set_set, List.get?_set_eq, hblk]
      rfl
    · exact jsGetV_jsSetV _ _ _
    · intro hfl
      simp [hfl]
    · intro hfl
      simp [hfl]

/-- Witness for C10: a fresh blockSize-5 arena with field `f`; `alloc`
with the unknown refs key `bogus` errors, yet `size` grows from 1 to 2. -/
theorem C10_alloc_mutates_before_validation_witness :
    ∃ ps', allocFuel 1 c2s0 0 77 [("bogus", 0)] [] =
        some (.error (.unknownPointerField "bogus"), ps') ∧
      size ps' = size c2s0 + 1 ∧
      ∃ blk', ps'.blocks.get? 0 = some blk' ∧
        jsGetV blk'.values (([] : List Nat).getLast?.getD 1) = some 77 ∧
        (([] : List Nat) = [] → blk'.nextFree = 1 + 1 ∧ blk'.freeList = []) ∧
        (([] : List Nat) ≠ [] → blk'.nextFree = 1 ∧
           blk'.freeList = ([] : List Nat).dropLast) := by
  have h := C10_alloc_mutates_before_validation c2s0 0 0 77 [("bogus", 0)] []
    { values := [none], fields := [List.replicate 5 0], rawFields := [],
      freeList := [], nextFree := 1, blockId := 0, firstNextFree := 1 }
    (.unknownPointerField "bogus") (by decide) (by decide) (Or.inl (by decide))
  exact h

/-- The write loop of `refAll` is the iterated `ref` write of the README,
provided every valid key's field id is in range of the block's slab list
(always true for API-built states). -/
theorem refAllWrites_eq_refWriteEach (refs : List (String × Int)) :
    ∀ (ps : PS) (p : Int) (blk : Block),
      p ≠ 0 →
      ps.blocks.get? (getBlockId ps.cfg p).toNat = some blk →
      (∀ k t, (k, t) ∈ refs → ∀ fid, nameLookup ps.names k = some fid → ¬ fid < 0 →
        fid.toNat < blk.fields.length) →
      refAllWrites ps (getBlockId ps.cfg p).toNat (getIndex ps.cfg p).toNat refs
        = refWriteEach ps p refs := by
  induction refs with
  | nil => intro ps p blk hp hblk hids; rfl
  | cons kv rest ih =>
    intro ps p blk hp hblk hids
    obtain ⟨k, t⟩ := kv
    simp only [refAllWrites, refWriteEach, ref, if_neg hp]
    cases hname : nameLookup ps.names k with
    | none => simp only [hname, hblk]
    | some fid =>
      by_cases hneg : fid < 0
      · simp only [hname, if_pos hneg]
      · simp only [hname, if_neg hneg, hblk]
        have hlt : fid.toNat < blk.fields.length :=
          hids k t (by simp) fid hname hneg
        obtain ⟨slab, hslab⟩ : ∃ slab, blk.fields.get? fid.toNat = some slab := by
          cases hs : blk.fields.get? fid.toNat with
          | none => rw [List.get?_eq_none] at hs; omega
          | some s => exact ⟨s, rfl⟩
        simp only [hslab]
        apply ih _ _ ({ blk with
            fields := blk.fields.set fid.toNat
              (slabSet slab (getIndex ps.cfg p).toNat t) }) hp
        · dsimp only
          rw [List.get?_set_eq, hblk]
          rfl
        · intro k' t' hmem fid' hname' hneg'
          rw [List.length_set]
          exact hids k' t' (by simp [hmem]) fid' hname' hneg'

/-- The `rawAll` counterpart of `refAllWrites_eq_refWriteEach`. -/
theorem rawAllWrites_eq_rawWriteEach (raws : List (String × Int)) :
    ∀ (ps : PS) (p : Int) (blk : Block),
      p ≠ 0 →
      ps.blocks.get? (getBlockId ps.cfg p).toNat = some blk →
      (∀ k t, (k, t) ∈ raws → ∀ fid, nameLookup ps.names k = some fid → ¬ 0 ≤ fid →
        (-fid - 1).toNat < blk.rawFields.length) →
      rawAllWrites ps (getBlockId ps.cfg p).toNat (getIndex ps.cfg p).toNat raws
        = rawWriteEach ps p raws := by
  induction raws with
  | nil => intro ps p blk hp hblk hids; rfl
  | cons kv rest ih =>
    intro ps p blk hp hblk hids
    obtain ⟨k, t⟩ := kv
    simp only [rawAllWrites, rawWriteEach, raw, if_neg hp]
    cases hname : nameLookup ps.names k with
    | none => simp only [hname, hblk]
    | some fid =>
      by_cases hneg : 0 ≤ fid
      · simp only [hname, if_pos hneg]
      · simp only [hname, if_neg hneg, hblk]
        have hlt : (-fid - 1).toNat < blk.rawFields.length :=
          hids k t (by simp) fid hname hneg
        obtain ⟨slab, hslab⟩ : ∃ slab, blk.rawFields.get? (-fid - 1).toNat = some slab := by
          cases hs : blk.rawFields.get? (-fid - 1).toNat with
          | none => rw [List.get?_eq_none] at hs; omega
          | some s => exact ⟨s, rfl⟩
        simp only [hslab]
        apply ih _ _ ({ blk with
            rawFields := blk.rawFields.set (-fid - 1).toNat
              (slabSet slab (getIndex ps.cfg p).toNat t) }) hp
        · dsimp only
          rw [List.get?_set_eq, hblk]
          rfl
        · intro k' t' hmem fid' hname' hneg'
          rw [List.length_set]
          exact hids k' t' (by simp [hmem]) fid' hname' hneg'

/-- C6 (counterexample): bulk set is *not* independent of occupancy.  In
`c6s2` pointer 1's slot has been freed; `refAll(1, {x: 5})` then returns
the input object but changes nothing — the field slab still reads 0 — and
even an unknown key (`zzz`) raises no error, although a direct
`ref(1,'zzz',5)` does. -/
theorem C6_counterexample :
    (value c6s2 1 none).1 = .ok none ∧
    refAll c6s2 1 (some [("x", 5)]) = (.ok [("x", 5)], c6s2) ∧
    (ref c6s2 1 "x" none).1 = .ok 0 ∧
    refAll c6s2 1 (some [("zzz", 5)]) = (.ok [("zzz", 5)], c6s2) ∧
    (ref c6s2 1 "zzz" (some 5)).1 = .error (.unknownPointerField "zzz") ∧
    rawAll c6s2 1 (some [("zzz", 5)]) = (.ok [("zzz", 5)], c6s2) := by
  decide

/-- C6 (amended): for a non-null pointer whose slot is *occupied*,
`refAll(p, refs)`/`rawAll(p, raws)` with a second argument behave exactly
as the iterated single-field writes `ref(p,k,v)` / `raw(p,k,v)` over the
supplied keys — each key is written and validated as `ref`/`raw` validate
it — and the same input object is returned; when the slot is
*unoccupied*, both return the input object unchanged, with no writes and
no validation. -/
theorem C6_bulk_set_matches_iterated_writes :
    (∀ ps p (refs : List (String × Int)) blk,
      p ≠ 0 →
      ps.blocks.get? (getBlockId ps.cfg p).toNat = some blk →
      jsGetV blk.values (getIndex ps.cfg p).toNat = none →
      refAll ps p (some refs) = (.ok refs, ps) ∧
      rawAll ps p (some refs) = (.ok refs, ps)) ∧
    (∀ ps p (refs : List (String × Int)) blk,
      p ≠ 0 →
      ps.blocks.get? (getBlockId ps.cfg p).toNat = some blk →
      ¬ jsGetV blk.values (getIndex ps.cfg p).toNat = none →
      (∀ k t, (k, t) ∈ refs → ∀ fid, nameLookup ps.names k = some fid → ¬ fid < 0 →
        fid.toNat < blk.fields.length) →
      refAll ps p (some refs)
        = (match refWriteEach ps p refs with
           | (.ok _, ps1) => (.ok refs, ps1)
           | (.error e, ps1) => (.error e, ps1))) ∧
    (∀ ps p (raws : List (String × Int)) blk,
      p ≠ 0 →
      ps.blocks.get? (getBlockId ps.cfg p).toNat = some blk →
      ¬ jsGetV blk.values (getIndex ps.cfg p).toNat = none →
      (∀ k t, (k, t) ∈ raws → ∀ fid, nameLookup ps.names k = some fid → ¬ 0 ≤ fid →
        (-fid - 1).toNat < blk.rawFields.length) →
      rawAll ps p (some raws)
        = (match rawWriteEach ps p raws with
           | (.ok _, ps1) => (.ok raws, ps1)
           | (.error e, ps1) => (.error e, ps1))) := by
  refine ⟨?_, ?_, ?_⟩
  · intro ps p refs blk hp hblk hocc
    constructor <;>
      simp only [refAll, rawAll, if_neg hp, hblk, if_pos hocc]
  · intro ps p refs blk hp hblk hocc hids
    simp only [refAll, if_neg hp, hblk, if_neg hocc]
    rw [refAllWrites_eq_refWriteEach refs ps p blk hp hblk hids]
  · intro ps p raws blk hp hblk hocc hids
    simp only [rawAll, if_neg hp, hblk, if_neg hocc]
    rw [rawAllWrites_eq_rawWriteEach raws ps p blk hp hblk hids]

/-- Witness for C6 (amended) at the occupied state `c6s1`: bulk-setting
`{x: 7}` is the iterated `ref` write. -/
theorem C6_bulk_set_matches_iterated_writes_witness :
    refAll c6s1 1 (some [("x", 7)])
      = (match refWriteEach c6s1 1 [("x", 7)] with
         | (.ok _, ps1) => (.ok [("x", 7)], ps1)
         | (.error e, ps1) => (.error e, ps1)) := by
  apply C6_bulk_set_matches_iterated_writes.2.1 c6s1 1 [("x", 7)]
    { values := [none, some 30], fields := [[0, 0, 0, 0, 0, 0, 0, 0, 0, 0]],
      rawFields := [], freeList := [], nextFree := 2, blockId := 0, firstNextFree := 1 }
    (by decide) (by decide) (by decide)
  intro k t hmem fid hname hneg
  rw [List.mem_singleton, Prod.mk.injEq] at hmem
  obtain ⟨rfl, rfl⟩ := hmem
  have hx : nameLookup c6s1.names "x" = some 0 := by decide
  rw [hx] at hname
  injection hname with h
  subst h
  decide

/-- A `raw` read leaves the state untouched (every branch returns the
input state). -/
theorem raw_read_preserves_state (ps : PS) (p : Int) (f : String) :
    (raw ps p f none).2 = ps := by
  unfold raw
  by_cases hp : p = 0
  · simp [hp]
  · simp only [if_neg hp]
    cases hname : nameLookup ps.names f with
    | none =>
      simp only [hname]
      cases hblk : ps.blocks.get? (getBlockId ps.cfg p).toNat <;> simp [hblk]
    | some fid =>
      simp only [hname]
      by_cases hpos : 0 ≤ fid
      · simp [hpos]
      · simp only [if_neg hpos]
        cases hblk : ps.blocks.get? (getBlockId ps.cfg p).toNat with
        | none => simp [hblk]
        | some blk =>
          simp only [hblk]
          cases hslab : blk.rawFields.get? (-fid - 1).toNat <;> simp [hslab]

/-- C9 (spec-modelled): the `raw8`/`raw16`/`raw32` views and `raw()`
always agree, since they alias the same uint32 slot: whenever `raw` reads
the word `w`, the 4-byte view reads the little-endian bytes of `w`, the
half-word view its halves, and the word view `[w]`; writing through the
4-byte view leaves `raw` and the view agreeing on the stored word.
Concretely, after `raw(p,'x',0x01020304)` the byte view reads
`[4, 3, 2, 1]` (little-endian), and writing `[9, 8, 7, 6]` through the
view makes `raw` read `0x06070809`. -/
theorem C9_raw_views_alias :
    (∀ ps p f w ps1, raw ps p f none = (.ok w, ps1) →
      raw8 ps p f none = (.ok (bytesOfWord w.toNat), ps1) ∧
      raw16 ps p f none = (.ok (halvesOfWord w.toNat), ps1) ∧
      raw32 ps p f none = (.ok [w.toNat], ps1)) ∧
    (∀ ps p f bs v8 ps1, raw8 ps p f (some bs) = (.ok v8, ps1) →
      ∃ w, raw ps1 p f none = (.ok w, ps1) ∧ v8 = bytesOfWord w.toNat) ∧
    (raw c9s2 1 "x" none).1 = .ok 16909060 ∧
    (raw8 c9s2 1 "x" none).1 = .ok [4, 3, 2, 1] ∧
    (raw16 c9s2 1 "x" none).1 = .ok [772, 258] ∧
    (raw32 c9s2 1 "x" none).1 = .ok [16909060] ∧
    (raw ((raw8 c9s2 1 "x" (some [9, 8, 7, 6])).2) 1 "x" none).1
      = .ok (9 + 8 * 256 + 7 * 65536 + 6 * 16777216) := by
  refine ⟨?_, ?_, by decide, by decide, by decide, by decide, by decide⟩
  · intro ps p f w ps1 h
    refine ⟨?_, ?_, ?_⟩ <;> simp only [raw8, raw16, raw32, h]
  · intro ps p f bs v8 ps1 h
    simp only [raw8] at h
    cases hwr : raw ps p f (some ((wordOfBytes bs : Nat) : Int)) with
    | mk r1 psx =>
      rw [hwr] at h
      cases r1 with
      | error e => exact absurd h (by simp)
      | ok t =>
        dsimp only at h
        cases hrd : raw psx p f none with
        | mk r2 psy =>
          have hpsy : psy = psx := by
            have := raw_read_preserves_state psx p f
            rw [hrd] at this
            exact this
          rw [hrd] at h
          cases r2 with
          | error e => exact absurd h (by simp)
          | ok w =>
            dsimp only at h
            have hb : bytesOfWord w.toNat = v8 := by
              injection h with h1 h2
              injection h1
            have hps : psy = ps1 := by
              injection h
            subst hps
            subst hpsy
            exact ⟨w, hrd, hb.symm⟩

/-- Witness for C9 at `c9s2` (raw field `x` holding `0x01020304`): the
view-read agreement applied at a concrete state. -/
theorem C9_raw_views_alias_witness :
    raw8 c9s2 1 "x" none = (.ok (bytesOfWord (16909060 : Int).toNat), c9s2) ∧
    raw16 c9s2 1 "x" none = (.ok (halvesOfWord (16909060 : Int).toNat), c9s2) ∧
    raw32 c9s2 1 "x" none = (.ok [(16909060 : Int).toNat], c9s2) :=
  C9_raw_views_alias.1 c9s2 1 "x" 16909060 c9s2 (by decide)

end PtrSet
